import Mathlib

/-!
# Verification of the GoFast concurrent range downloader

A shallow embedding of `main.go`: the chunk planner (`GetDownloadChunks`),
the size resolver (`GetFileSize`), and the per-chunk fetch task and
error-aggregation loop of the fetch coordinator (`DownloadChunks`).

Machine integers (`uint64`) are modelled as `Nat` with an explicit
`% U64` (`U64 = 2^64`) at every arithmetic step whose result could wrap;
Go's runtime panic on division by zero is modelled by returning `none`.
Network and file-system effects are modelled by passing the outcome of
each external step (HEAD response, GET response, seek, copy) explicitly.
-/

namespace GoFast

/-- The modulus `2^64` of Go's `uint64` arithmetic. -/
def U64 : Nat := 2 ^ 64

/-- Source struct `DownloadChunk { Start uint64; End uint64 }` (main.go:12-15). -/
structure DownloadChunk where
  Start : Nat
  End : Nat
deriving DecidableEq

/-- Body of the planning loop of `GetDownloadChunks` (main.go:71-83) for loop
index `i`, with `chunkSize = size / threads` inlined.  Every `uint64`
operation is taken `% U64`; the Go expression `size - (i*chunkSize)` is
`uint64` subtraction, i.e. `(size + U64 - x) % U64` for `x` the `uint64`
value of `i*chunkSize`. -/
def chunkOf (size threads : Nat) (i : Nat) : DownloadChunk :=
  let chunkSize := size / threads
  if i = threads - 1 then
    { Start := i * chunkSize % U64,
      End := (i * chunkSize % U64 + (size + U64 - i * chunkSize % U64) % U64) % U64 }
  else
    { Start := i * chunkSize % U64,
      End := (i * chunkSize % U64 + chunkSize) % U64 }

/-- Source function `GetDownloadChunks(size uint64, threads uint64) []DownloadChunk`
(main.go:66-86).  `chunkSize := size / threads` is a Go integer division,
which panics at runtime when `threads == 0`; the panic is modelled as
`none`.  Otherwise the function fills a slice of length `threads` with the
loop body `chunkOf`. -/
def GetDownloadChunks (size threads : Nat) : Option (List DownloadChunk) :=
  if threads = 0 then none
  else some ((List.range threads).map (chunkOf size threads))

theorem getDownloadChunks_1000_3 :
    GetDownloadChunks 1000 3 = some [⟨0, 333⟩, ⟨333, 666⟩, ⟨666, 1000⟩] := by
  decide

/-! ### Arithmetic facts about the loop body

For `i < threads` and `size < 2^64` none of the `uint64` operations in the
loop body wrap, so the `% U64` are identities. -/

theorem mul_chunkSize_le (size threads i : Nat) (hi : i ≤ threads) :
    i * (size / threads) ≤ size :=
  le_trans (Nat.mul_le_mul_right _ hi)
    (le_trans (le_of_eq (Nat.mul_comm _ _)) (Nat.div_mul_le_self size threads))

theorem chunkOf_Start (size threads i : Nat) (hs : size < U64) (hi : i < threads) :
    (chunkOf size threads i).Start = i * (size / threads) := by
  have h1 : i * (size / threads) % U64 = i * (size / threads) :=
    Nat.mod_eq_of_lt (lt_of_le_of_lt (mul_chunkSize_le size threads i (le_of_lt hi)) hs)
  simp only [chunkOf]
  split <;> simpa using h1

theorem chunkOf_End_last (size threads : Nat) (hs : size < U64) :
    (chunkOf size threads (threads - 1)).End = size := by
  have hic : (threads - 1) * (size / threads) ≤ size :=
    mul_chunkSize_le size threads _ (Nat.sub_le _ _)
  have h1 : (threads - 1) * (size / threads) % U64 = (threads - 1) * (size / threads) :=
    Nat.mod_eq_of_lt (lt_of_le_of_lt hic hs)
  simp only [chunkOf, if_true]
  rw [h1]
  have h2 : size + U64 - (threads - 1) * (size / threads)
      = (size - (threads - 1) * (size / threads)) + U64 := by omega
  rw [h2, Nat.add_mod_right,
    Nat.mod_eq_of_lt (lt_of_le_of_lt (Nat.sub_le _ _) hs)]
  have h3 : (threads - 1) * (size / threads) + (size - (threads - 1) * (size / threads))
      = size := by omega
  rw [h3, Nat.mod_eq_of_lt hs]

theorem chunkOf_End_mid (size threads i : Nat) (hs : size < U64) (hi : i < threads)
    (hlast : i ≠ threads - 1) :
    (chunkOf size threads i).End = (i + 1) * (size / threads) := by
  have hi1 : i + 1 ≤ threads := hi
  have h1 : i * (size / threads) % U64 = i * (size / threads) :=
    Nat.mod_eq_of_lt (lt_of_le_of_lt (mul_chunkSize_le size threads i (le_of_lt hi)) hs)
  have h2 : (i + 1) * (size / threads) ≤ size := mul_chunkSize_le size threads _ hi1
  simp only [chunkOf, if_neg hlast]
  rw [h1]
  have h3 : i * (size / threads) + size / threads = (i + 1) * (size / threads) := by ring
  rw [h3, Nat.mod_eq_of_lt (lt_of_le_of_lt h2 hs)]

theorem chunkOf_End_le (size threads i : Nat) (hs : size < U64) (hi : i < threads) :
    (chunkOf size threads i).End ≤ size := by
  by_cases h : i = threads - 1
  · subst h
    exact le_of_eq (chunkOf_End_last size threads hs)
  · rw [chunkOf_End_mid size threads i hs hi h]
    exact mul_chunkSize_le size threads _ hi

theorem chunkOf_Start_le_End (size threads i : Nat) (hs : size < U64) (hi : i < threads) :
    (chunkOf size threads i).Start ≤ (chunkOf size threads i).End := by
  rw [chunkOf_Start size threads i hs hi]
  by_cases h : i = threads - 1
  · subst h
    rw [chunkOf_End_last size threads hs]
    exact mul_chunkSize_le size threads _ (Nat.sub_le _ _)
  · rw [chunkOf_End_mid size threads i hs hi h]
    exact Nat.mul_le_mul_right _ (Nat.le_succ i)

/-! ### Claims about the chunk planner -/

/-- **C1** — for every `totalSize < 2^64` and `workerCount ≥ 1` the plan
returned by `GetDownloadChunks` partitions `[0, totalSize)`: every range has
`Start ≤ End`, consecutive ranges satisfy `End = next.Start`, the ranges are
pairwise non-overlapping, the first range starts at `0`, the last range ends
at `totalSize`, and the union of the half-open spans is exactly
`[0, totalSize)`. -/
theorem getDownloadChunks_partition (size threads : Nat) (hs : size < U64) (ht : 0 < threads) :
    ∃ plan : List DownloadChunk,
      GetDownloadChunks size threads = some plan ∧
      plan.length = threads ∧
      (∀ c ∈ plan, c.Start ≤ c.End) ∧
      List.Chain' (fun a b => a.End = b.Start) plan ∧
      List.Pairwise (fun a b => a.End ≤ b.Start) plan ∧
      plan.head?.map DownloadChunk.Start = some 0 ∧
      plan.getLast?.map DownloadChunk.End = some size ∧
      (∀ n, n < size ↔ ∃ c ∈ plan, c.Start ≤ n ∧ n < c.End) := by
  refine ⟨(List.range threads).map (chunkOf size threads), ?_, ?_, ?_, ?_, ?_, ?_, ?_, ?_⟩
  · unfold GetDownloadChunks
    rw [if_neg (by omega)]
  · simp
  · intro c hc
    rw [List.mem_map] at hc
    obtain ⟨i, hi, rfl⟩ := hc
    exact chunkOf_Start_le_End size threads i hs (List.mem_range.mp hi)
  · rw [List.chain'_map]
    obtain ⟨k, rfl⟩ : ∃ k, threads = k + 1 := ⟨threads - 1, by omega⟩
    rw [List.chain'_range_succ]
    intro m hm
    rw [chunkOf_End_mid size (k + 1) m hs (by omega) (by omega),
      chunkOf_Start size (k + 1) (m + 1) hs (by omega)]
  · rw [List.pairwise_map]
    refine List.Pairwise.imp_of_mem ?_ (List.pairwise_lt_range threads)
    intro a b ha hb hab
    rw [List.mem_range] at ha hb
    rw [chunkOf_End_mid size threads a hs ha (by omega),
      chunkOf_Start size threads b hs hb]
    exact Nat.mul_le_mul_right _ (by omega)
  · rw [List.head?_eq_getElem?, List.getElem?_map, List.getElem?_range ht]
    simp [chunkOf_Start size threads 0 hs ht]
  · rw [List.getLast?_eq_getElem?]
    have hlen : ((List.range threads).map (chunkOf size threads)).length = threads := by simp
    rw [hlen, List.getElem?_map, List.getElem?_range (by omega : threads - 1 < threads)]
    simp [chunkOf_End_last size threads hs]
  · intro n
    constructor
    · intro hn
      by_cases hc0 : size / threads = 0
      · refine ⟨chunkOf size threads (threads - 1),
          List.mem_map.mpr ⟨threads - 1, List.mem_range.mpr (by omega), rfl⟩, ?_, ?_⟩
        · rw [chunkOf_Start size threads _ hs (by omega)]
          simp [hc0]
        · rw [chunkOf_End_last size threads hs]
          exact hn
      · have hcpos : 0 < size / threads := Nat.pos_of_ne_zero hc0
        by_cases hbig : threads - 1 ≤ n / (size / threads)
        · refine ⟨chunkOf size threads (threads - 1),
            List.mem_map.mpr ⟨threads - 1, List.mem_range.mpr (by omega), rfl⟩, ?_, ?_⟩
          · rw [chunkOf_Start size threads _ hs (by omega)]
            calc (threads - 1) * (size / threads)
                ≤ n / (size / threads) * (size / threads) := Nat.mul_le_mul_right _ hbig
              _ ≤ n := Nat.div_mul_le_self n _
          · rw [chunkOf_End_last size threads hs]
            exact hn
        · push_neg at hbig
          refine ⟨chunkOf size threads (n / (size / threads)),
            List.mem_map.mpr ⟨_, List.mem_range.mpr (by omega), rfl⟩, ?_, ?_⟩
          · rw [chunkOf_Start size threads _ hs (by omega)]
            exact Nat.div_mul_le_self n _
          · rw [chunkOf_End_mid size threads _ hs (by omega) (by omega)]
            have hm : n % (size / threads) < size / threads := Nat.mod_lt _ hcpos
            calc n = size / threads * (n / (size / threads)) + n % (size / threads) :=
                  (Nat.div_add_mod n _).symm
              _ < size / threads * (n / (size / threads)) + size / threads := by omega
              _ = (n / (size / threads) + 1) * (size / threads) := by ring
    · rintro ⟨ch, hch, h1, h2⟩
      rw [List.mem_map] at hch
      obtain ⟨i, hi, rfl⟩ := hch
      exact lt_of_lt_of_le h2 (chunkOf_End_le size threads i hs (List.mem_range.mp hi))

/-- Witness for C1 at `totalSize = 1000`, `workerCount = 3`. -/
theorem getDownloadChunks_partition_witness :
    ∃ plan, GetDownloadChunks 1000 3 = some plan ∧ plan.length = 3 := by
  obtain ⟨plan, h1, h2, -⟩ := getDownloadChunks_partition 1000 3 (by decide) (by decide)
  exact ⟨plan, h1, h2⟩

/-- **C2 counterexample** — calling the planner with `workerCount = 0` does
not behave as if `workerCount` were `1`: `size / threads` is a Go integer
division, which panics when `threads == 0` (modelled as `none`), whereas
`workerCount = 1` yields a one-chunk plan. -/
theorem getDownloadChunks_zero_workers_not_one :
    GetDownloadChunks 5 0 = none ∧ GetDownloadChunks 5 1 = some [⟨0, 5⟩] ∧
    GetDownloadChunks 5 0 ≠ GetDownloadChunks 5 1 := by decide

/-- **C2 (amended)** — `GetDownloadChunks` is total for every
`workerCount ≥ 1`, but for `workerCount = 0` the division `size / threads`
panics (modelled as `none`): it does not fall back to `workerCount = 1`. -/
theorem getDownloadChunks_total_iff_pos_threads :
    (∀ size threads : Nat, threads ≠ 0 → (GetDownloadChunks size threads).isSome = true) ∧
    (∀ size : Nat, GetDownloadChunks size 0 = none) := by
  constructor
  · intro size threads h
    simp [GetDownloadChunks, h]
  · intro size
    simp [GetDownloadChunks]

/-- Witness for the amended C2 at `size = 5`. -/
theorem getDownloadChunks_total_iff_pos_threads_witness :
    (GetDownloadChunks 5 2).isSome = true ∧ GetDownloadChunks 5 0 = none :=
  ⟨getDownloadChunks_total_iff_pos_threads.1 5 2 (by decide),
   getDownloadChunks_total_iff_pos_threads.2 5⟩

/-- **C3 counterexample** — for `totalSize = 0` and `workerCount = 3` the
planner returns three chunks `{0,0}`, not a single chunk: the length is not
capped at `1` when the size is `0`. -/
theorem getDownloadChunks_size_zero_not_capped :
    GetDownloadChunks 0 3 = some [⟨0, 0⟩, ⟨0, 0⟩, ⟨0, 0⟩] ∧
    [(⟨0, 0⟩ : DownloadChunk), ⟨0, 0⟩, ⟨0, 0⟩].length ≠ 1 := by decide

/-- **C3 (amended)** — for every `workerCount ≥ 1` the plan has length
exactly `workerCount` (also when `totalSize = 0`) and is never empty; when
`totalSize = 0` every chunk of the plan is the degenerate chunk `{0,0}`
(so only `workerCount = 1` gives a one-element plan `[{0,0}]`). -/
theorem getDownloadChunks_length_eq_threads (size threads : Nat) (ht : 0 < threads) :
    ∃ plan, GetDownloadChunks size threads = some plan ∧ plan.length = threads ∧
      plan ≠ [] ∧ (size = 0 → ∀ c ∈ plan, c = ⟨0, 0⟩) := by
  refine ⟨(List.range threads).map (chunkOf size threads), ?_, ?_, ?_, ?_⟩
  · unfold GetDownloadChunks
    rw [if_neg (by omega)]
  · simp
  · intro hnil
    have hlen := congrArg List.length hnil
    simp at hlen
    omega
  · rintro rfl c hc
    rw [List.mem_map] at hc
    obtain ⟨i, hi, rfl⟩ := hc
    have hi' := List.mem_range.mp hi
    have hU : (0 : Nat) < U64 := by decide
    have h1 : (chunkOf 0 threads i).Start = 0 := by
      rw [chunkOf_Start 0 threads i hU hi']
      simp
    have h2 : (chunkOf 0 threads i).End = 0 := by
      by_cases h : i = threads - 1
      · subst h
        exact chunkOf_End_last 0 threads hU
      · rw [chunkOf_End_mid 0 threads i hU hi' h]
        simp
    have heta : chunkOf 0 threads i = ⟨(chunkOf 0 threads i).Start, (chunkOf 0 threads i).End⟩ :=
      rfl
    rw [heta, h1, h2]

/-- Witness for the amended C3 at `totalSize = 0`, `workerCount = 3`. -/
theorem getDownloadChunks_length_eq_threads_witness :
    ∃ plan, GetDownloadChunks 0 3 = some plan ∧ plan.length = 3 ∧
      plan ≠ [] ∧ ((0 : Nat) = 0 → ∀ c ∈ plan, c = ⟨0, 0⟩) :=
  getDownloadChunks_length_eq_threads 0 3 (by decide)

/-! ### The fetch coordinator (`DownloadChunks`, main.go:105-165)

Each chunk task is a goroutine whose external steps — request construction,
HTTP round trip, `Seek`, `io.Copy` — are modelled by an explicit
environment record giving the outcome of each step.  The task's observable
behaviour is the request it sends, the positioned writes it performs, and
the one value it sends on `errChan` (`none` for Go's `nil`). -/

/-- The slice of an HTTP response the task inspects: `resp.StatusCode`
and `resp.Body` (the body as a byte list). -/
structure HttpResponse where
  StatusCode : Nat
  Body : List Nat
deriving DecidableEq

/-- Outcome of `http.NewRequest("GET", url, nil)` (main.go:118). -/
inductive ReqResult where
  | err (msg : String)
  | ok
deriving DecidableEq

/-- Outcome of `http.DefaultClient.Do(req)` (main.go:126). -/
inductive DoResult where
  | err (msg : String)
  | ok (resp : HttpResponse)
deriving DecidableEq

/-- Outcome of `f.Seek(int64(start), 0)` (main.go:139). -/
inductive SeekResult where
  | err (msg : String)
  | ok
deriving DecidableEq

/-- Outcome of `io.Copy(f, resp.Body)` (main.go:146); on failure Go may
have copied a prefix `written` of the body before the error. -/
inductive CopyResult where
  | err (msg : String) (written : List Nat)
  | ok
deriving DecidableEq

/-- The environment a single chunk goroutine runs against. -/
structure TaskEnv where
  newRequest : ReqResult
  doRequest : DoResult
  seek : SeekResult
  copy : CopyResult
deriving DecidableEq

/-- A GET request as the task sends it: target URL and the value of its
`Range` header. -/
structure RangeRequest where
  url : String
  rangeHeader : String
deriving DecidableEq

/-- Observable behaviour of one chunk goroutine: the request handed to
`Do` (if construction succeeded), the positioned writes `(offset, bytes)`
performed on the output file, and the value sent on `errChan`. -/
structure TaskResult where
  sent : Option RangeRequest
  writes : List (Nat × List Nat)
  report : Option String
deriving DecidableEq

/-- Message `fmt.Errorf("Error: Failed to create file %s. %v", output, err)` (main.go:108). -/
def errCreateFile (output m : String) : String :=
  "Error: Failed to create file " ++ output ++ ". " ++ m

/-- Message `fmt.Errorf("Error: Failed to create request for %s. %v", url, err)` (main.go:120). -/
def errCreateRequest (url m : String) : String :=
  "Error: Failed to create request for " ++ url ++ ". " ++ m

/-- Message `fmt.Errorf("Error: Failed to make request to %s. %v", url, err)` (main.go:128, also main.go:36). -/
def errRequest (url m : String) : String :=
  "Error: Failed to make request to " ++ url ++ ". " ++ m

/-- Message `fmt.Errorf("Error: Unsuccessful status code form %s (%d).", url, resp.StatusCode)`
(main.go:133; the source misspells "from" as "form"). -/
def errStatus (url : String) (code : Nat) : String :=
  "Error: Unsuccessful status code form " ++ url ++ " (" ++ toString code ++ ")."

/-- Message `fmt.Errorf("Error: Unsuccessful writing to file %s. %v", output, err)`
(main.go:141 and main.go:148). -/
def errWrite (output m : String) : String :=
  "Error: Unsuccessful writing to file " ++ output ++ ". " ++ m

/-- The chunk goroutine body (main.go:116-154) for chunk `[start, end_]`,
run against environment `env`.  `http.StatusPartialContent = 206`. -/
def runChunkTask (url output : String) (start end_ : Nat) (env : TaskEnv) : TaskResult :=
  match env.newRequest with
  | .err m => { sent := none, writes := [], report := some (errCreateRequest url m) }
  | .ok =>
    let chunkHeader := "bytes=" ++ toString start ++ "-" ++ toString end_
    let req : RangeRequest := { url := url, rangeHeader := chunkHeader }
    match env.doRequest with
    | .err m => { sent := some req, writes := [], report := some (errRequest url m) }
    | .ok resp =>
      if resp.StatusCode ≠ 206 then
        { sent := some req, writes := [], report := some (errStatus url resp.StatusCode) }
      else
        match env.seek with
        | .err m => { sent := some req, writes := [], report := some (errWrite output m) }
        | .ok =>
          match env.copy with
          | .err m written =>
            { sent := some req, writes := [(start, written)], report := some (errWrite output m) }
          | .ok =>
            { sent := some req, writes := [(start, resp.Body)], report := none }

/-- The receive loop of the coordinator (main.go:157-162) applied to the
sequence of task reports in completion order: the first non-`nil` error is
returned at once; if all reports are `nil`, the result is `nil`. -/
def firstError : List (Option String) → Option String
  | [] => none
  | some e :: _ => some e
  | none :: rest => firstError rest

/-- Outcome of `os.Create(output)` (main.go:106). -/
inductive CreateResult where
  | err (msg : String)
  | ok
deriving DecidableEq

/-- Source function `DownloadChunks(url string, chunks []DownloadChunk, output string) error`
(main.go:105-165), abstracted over the outcome of `os.Create` and the
sequence `outcomes` of task reports in completion order. -/
def DownloadChunks (output : String) (createFile : CreateResult)
    (outcomes : List (Option String)) : Option String :=
  match createFile with
  | .err m => some (errCreateFile output m)
  | .ok => firstError outcomes

/-- How many values the receive loop (main.go:157-162) actually takes off
`errChan` before `DownloadChunks` returns: it stops at (and including) the
first non-`nil` report. -/
def receivedCount : List (Option String) → Nat
  | [] => 0
  | some _ :: _ => 1
  | none :: rest => receivedCount rest + 1

/-! ### Claims about the fetch coordinator -/

/-- **C4** — a chunk task that gets any HTTP status other than 206
(including 200) reports the status error and performs no write; and any
write it does perform can only follow a 206 response. -/
theorem chunkTask_rejects_non_206 :
    (∀ url output start end_ env resp, env.newRequest = ReqResult.ok →
      env.doRequest = DoResult.ok resp → resp.StatusCode ≠ 206 →
      (runChunkTask url output start end_ env).report = some (errStatus url resp.StatusCode) ∧
      (runChunkTask url output start end_ env).writes = []) ∧
    (∀ url output start end_ env, (runChunkTask url output start end_ env).writes ≠ [] →
      ∃ resp, env.doRequest = DoResult.ok resp ∧ resp.StatusCode = 206) := by
  constructor
  · intro url output start end_ env resp h1 h2 h3
    obtain ⟨nr, dr, sk, cp⟩ := env
    cases h1
    cases h2
    constructor <;> simp [runChunkTask, h3]
  · intro url output start end_ env hw
    obtain ⟨nr, dr, sk, cp⟩ := env
    cases nr with
    | err m => simp [runChunkTask] at hw
    | ok =>
      cases dr with
      | err m => simp [runChunkTask] at hw
      | ok resp =>
        by_cases hst : resp.StatusCode = 206
        · exact ⟨resp, rfl, hst⟩
        · simp [runChunkTask, hst] at hw

/-- Witness for C4: a 200 response to a ranged request fails the task and
nothing is written. -/
theorem chunkTask_rejects_non_206_witness :
    (runChunkTask "http://u" "out.bin" 0 10
        ⟨ReqResult.ok, DoResult.ok ⟨200, [7, 7]⟩, SeekResult.ok, CopyResult.ok⟩).report
      = some (errStatus "http://u" 200) ∧
    (runChunkTask "http://u" "out.bin" 0 10
        ⟨ReqResult.ok, DoResult.ok ⟨200, [7, 7]⟩, SeekResult.ok, CopyResult.ok⟩).writes
      = [] :=
  chunkTask_rejects_non_206.1 "http://u" "out.bin" 0 10 _ ⟨200, [7, 7]⟩ rfl rfl (by decide)

/-- Helper: `firstError` is `none` exactly when every report is `none`. -/
theorem firstError_eq_none_iff (l : List (Option String)) :
    firstError l = none ↔ ∀ o ∈ l, o = none := by
  induction l with
  | nil => simp [firstError]
  | cons o rest ih =>
    cases o with
    | none => simp [firstError, ih]
    | some e => simp [firstError]

/-- Helper: `firstError` returns the first non-`nil` element. -/
theorem firstError_append_first (pre : List (Option String)) (e : String)
    (post : List (Option String)) (h : ∀ o ∈ pre, o = none) :
    firstError (pre ++ some e :: post) = some e := by
  induction pre with
  | nil => rfl
  | cons o rest ih =>
    have ho : o = none := h o (List.mem_cons_self o rest)
    subst ho
    simpa [firstError] using ih fun o hm => h o (List.mem_cons_of_mem _ hm)

/-- **C5** — once the output file is created, `DownloadChunks` returns `nil`
iff every task reports success; if some task fails, the value returned is
the first failure in completion order; and every error a task can report
names its stage (one of the four `fmt.Errorf` formats) and carries the URL,
the status code, or the output path as context. -/
theorem downloadChunks_first_error :
    (∀ output outcomes, DownloadChunks output CreateResult.ok outcomes = none ↔
        ∀ o ∈ outcomes, o = none) ∧
    (∀ output (pre : List (Option String)) e post, (∀ o ∈ pre, o = none) →
        DownloadChunks output CreateResult.ok (pre ++ some e :: post) = some e) ∧
    (∀ url output start end_ env msg,
        (runChunkTask url output start end_ env).report = some msg →
        (∃ m, msg = errCreateRequest url m) ∨ (∃ m, msg = errRequest url m) ∨
        (∃ code, msg = errStatus url code) ∨ (∃ m, msg = errWrite output m)) := by
  refine ⟨?_, ?_, ?_⟩
  · intro output outcomes
    exact firstError_eq_none_iff outcomes
  · intro output pre e post h
    exact firstError_append_first pre e post h
  · intro url output start end_ env msg h
    obtain ⟨nr, dr, sk, cp⟩ := env
    cases nr with
    | err m =>
      left
      exact ⟨m, (Option.some_injective _ h.symm)⟩
    | ok =>
      cases dr with
      | err m =>
        right; left
        exact ⟨m, (Option.some_injective _ h.symm)⟩
      | ok resp =>
        by_cases hst : resp.StatusCode = 206
        · cases sk with
          | err m =>
            right; right; right
            simp [runChunkTask, hst] at h
            exact ⟨m, h.symm⟩
          | ok =>
            cases cp with
            | err m written =>
              right; right; right
              simp [runChunkTask, hst] at h
              exact ⟨m, h.symm⟩
            | ok => simp [runChunkTask, hst] at h
        · right; right; left
          simp [runChunkTask, hst] at h
          exact ⟨resp.StatusCode, h.symm⟩

/-- Witness for C5: the first failure in completion order is returned even
when later tasks also fail. -/
theorem downloadChunks_first_error_witness :
    DownloadChunks "out.bin" CreateResult.ok
        [none, some (errStatus "http://u" 404), some (errWrite "out.bin" "disk full")]
      = some (errStatus "http://u" 404) :=
  downloadChunks_first_error.2.1 "out.bin" [none] (errStatus "http://u" 404)
    [some (errWrite "out.bin" "disk full")] (by simp)

/-- **C6** — evaluation at the failing input: with four chunk tasks whose
first completed report is an error, the receive loop takes only one value
off the unbuffered `errChan` before `DownloadChunks` returns, strictly
fewer than the four launched tasks; the other three goroutines stay
blocked on their send forever, so they are not reaped. -/
theorem downloadChunks_stops_receiving_at_first_error :
    receivedCount [some (errStatus "http://u" 500), none, none, none] = 1 ∧
    receivedCount [some (errStatus "http://u" 500), none, none, none] <
      [some (errStatus "http://u" 500), none, none, none].length := by
  constructor
  · rfl
  · decide

/-- **C7** — every chunk task's request carries the header
`Range: bytes=<Start>-<End>` with the planner's `End` value used directly
(unchanged, not `End - 1`) as the header's end bound. -/
theorem chunkTask_range_header (size threads : Nat) (plan : List DownloadChunk)
    (c : DownloadChunk) (url output : String) (env : TaskEnv)
    (hplan : GetDownloadChunks size threads = some plan) (hc : c ∈ plan)
    (hreq : env.newRequest = ReqResult.ok) :
    (runChunkTask url output c.Start c.End env).sent =
      some ⟨url, "bytes=" ++ toString c.Start ++ "-" ++ toString c.End⟩ := by
  obtain ⟨nr, dr, sk, cp⟩ := env
  cases hreq
  cases dr with
  | err m => rfl
  | ok resp =>
    by_cases hst : resp.StatusCode = 206
    · cases sk with
      | err m => simp [runChunkTask, hst]
      | ok =>
        cases cp with
        | err m written => simp [runChunkTask, hst]
        | ok => simp [runChunkTask, hst]
    · simp [runChunkTask, hst]

/-- Witness for C7 at the middle chunk of `GetDownloadChunks 1000 3`: its
request header is exactly `bytes=333-666`. -/
theorem chunkTask_range_header_witness :
    (runChunkTask "http://u" "out.bin" 333 666
        ⟨ReqResult.ok, DoResult.err "boom", SeekResult.ok, CopyResult.ok⟩).sent =
      some ⟨"http://u", "bytes=333-666"⟩ :=
  (chunkTask_range_header 1000 3 [⟨0, 333⟩, ⟨333, 666⟩, ⟨666, 1000⟩] ⟨333, 666⟩
    "http://u" "out.bin" ⟨ReqResult.ok, DoResult.err "boom", SeekResult.ok, CopyResult.ok⟩
    (by decide) (by decide) rfl).trans (by decide)

/-! ### The size resolver (`GetFileSize`, main.go:33-51)

The HEAD round trip is modelled by its outcome; the parsing of the
`Content-Length` header follows Go's `strconv.ParseInt(s, 10, 64)` and the
`uint64(size)` conversion is the two's-complement reinterpretation, i.e.
reduction modulo `2^64`. -/

/-- Value of a nonempty all-decimal-digit character list (base 10);
`none` when the list is empty or contains a non-digit, exactly the strings
Go's `ParseInt` rejects as syntax errors after the optional sign. -/
def digitsVal (cs : List Char) : Option Nat :=
  if cs = [] then none
  else if cs.all Char.isDigit then
    some (cs.foldl (fun acc c => acc * 10 + (c.toNat - 48)) 0)
  else none

/-- Model of `strconv.ParseInt(s, 10, 64)`: an optional leading `+`/`-` followed by
at least one decimal digit, with the result required to fit in `int64`
(`-2^63 ≤ v ≤ 2^63 - 1`); the error strings are the ones `strconv`
produces. -/
def parseInt64 (s : String) : Except String Int :=
  match s.data with
  | [] => .error ("strconv.ParseInt: parsing \"" ++ s ++ "\": invalid syntax")
  | '-' :: rest =>
    match digitsVal rest with
    | none => .error ("strconv.ParseInt: parsing \"" ++ s ++ "\": invalid syntax")
    | some n =>
      if n ≤ 2 ^ 63 then .ok (-(n : Int))
      else .error ("strconv.ParseInt: parsing \"" ++ s ++ "\": value out of range")
  | '+' :: rest =>
    match digitsVal rest with
    | none => .error ("strconv.ParseInt: parsing \"" ++ s ++ "\": invalid syntax")
    | some n =>
      if n < 2 ^ 63 then .ok (n : Int)
      else .error ("strconv.ParseInt: parsing \"" ++ s ++ "\": value out of range")
  | cs =>
    match digitsVal cs with
    | none => .error ("strconv.ParseInt: parsing \"" ++ s ++ "\": invalid syntax")
    | some n =>
      if n < 2 ^ 63 then .ok (n : Int)
      else .error ("strconv.ParseInt: parsing \"" ++ s ++ "\": value out of range")

/-- Go's `uint64(v)` for `v : int64`: two's-complement reinterpretation,
i.e. `v mod 2^64` as a nonnegative integer. -/
def uint64OfInt64 (v : Int) : Nat := (v % (2 ^ 64 : Int)).toNat

/-- The part of a HEAD response `GetFileSize` looks at:
`resp.Header["Content-Length"]`, which is either absent (Go `nil`) or a
nonempty slice of values — `net/http` never stores an empty header slice,
so a present key is modelled as its first value plus the remaining ones. -/
structure HeadResponse where
  contentLength : Option (String × List String)
deriving DecidableEq

/-- Outcome of `http.Head(url)` (main.go:34). -/
inductive HeadResult where
  | transportErr (msg : String)
  | ok (resp : HeadResponse)
deriving DecidableEq

/-- Source function `GetFileSize(url string) (uint64, error)` (main.go:33-51), run
against the outcome of its single HEAD request (the function never
retries).  Returns the pair `(size, error)` exactly as the Go code does. -/
def GetFileSize (url : String) (res : HeadResult) : Nat × Option String :=
  match res with
  | .transportErr m => (0, some (errRequest url m))
  | .ok resp =>
    match resp.contentLength with
    | none => (0, some "Error: Failed to determine download size.")
    | some (v, _) =>
      match parseInt64 v with
      | .error m => (0, some ("Error: Failed to determine download size. " ++ m))
      | .ok n => (uint64OfInt64 n, none)

/-! ### Claims about the size resolver -/

/-- Helper: any value `parseInt64` accepts lies in the `int64` range. -/
theorem parseInt64_ok_bounds (v : String) (n : Int) (h : parseInt64 v = Except.ok n) :
    -(2 ^ 63 : Int) ≤ n ∧ n < 2 ^ 63 := by
  have h63 : (2 : Int) ^ 63 = 9223372036854775808 := by norm_num
  have h63n : (2 : Nat) ^ 63 = 9223372036854775808 := by norm_num
  unfold parseInt64 at h
  split at h
  · simp at h
  · split at h
    · simp at h
    · rename_i m hm
      split at h
      · simp only [Except.ok.injEq] at h
        subst h
        rename_i hle
        rw [h63n] at hle
        constructor <;> rw [h63] <;> omega
      · simp at h
  · split at h
    · simp at h
    · rename_i m hm
      split at h
      · simp only [Except.ok.injEq] at h
        subst h
        rename_i hlt
        rw [h63n] at hlt
        constructor <;> rw [h63] <;> omega
      · simp at h
  · split at h
    · simp at h
    · rename_i m hm
      split at h
      · simp only [Except.ok.injEq] at h
        subst h
        rename_i hlt
        rw [h63n] at hlt
        constructor <;> rw [h63] <;> omega
      · simp at h

/-- **C8** — `GetFileSize` returns `(0, error)` in exactly three cases —
transport failure of the HEAD request, missing `Content-Length` header,
and a header value `strconv.ParseInt` rejects — each with its own error;
in every other case it returns the parsed size (reinterpreted as `uint64`)
and no error.  The function consumes a single HEAD outcome: nothing is
retried. -/
theorem getFileSize_cases :
    (∀ url m, GetFileSize url (HeadResult.transportErr m) =
        (0, some (errRequest url m))) ∧
    (∀ url, GetFileSize url (HeadResult.ok ⟨none⟩) =
        (0, some "Error: Failed to determine download size.")) ∧
    (∀ url v rest m, parseInt64 v = Except.error m →
        GetFileSize url (HeadResult.ok ⟨some (v, rest)⟩) =
          (0, some ("Error: Failed to determine download size. " ++ m))) ∧
    (∀ url v rest n, parseInt64 v = Except.ok n →
        GetFileSize url (HeadResult.ok ⟨some (v, rest)⟩) = (uint64OfInt64 n, none)) := by
  refine ⟨fun url m => rfl, fun url => rfl, ?_, ?_⟩
  · intro url v rest m h
    simp [GetFileSize, h]
  · intro url v rest n h
    simp [GetFileSize, h]

/-- Witness for C8: a numeric header value is parsed and returned with no
error, and a non-numeric one yields the wrapped `strconv` error. -/
theorem getFileSize_cases_witness :
    GetFileSize "http://u" (HeadResult.ok ⟨some ("1000", [])⟩) = (1000, none) :=
  (getFileSize_cases.2.2.2 "http://u" "1000" [] 1000 rfl).trans (by decide)

/-- **C10** — when the first `Content-Length` value parses as a negative
64-bit integer, `GetFileSize` reports success (no error) and returns the
value reinterpreted modulo `2^64`, i.e. `n + 2^64`. -/
theorem getFileSize_negative_size_wraps (url v : String) (rest : List String) (n : Int)
    (hp : parseInt64 v = Except.ok n) (hn : n < 0) :
    GetFileSize url (HeadResult.ok ⟨some (v, rest)⟩) = ((n + 2 ^ 64).toNat, none) := by
  obtain ⟨hlo, -⟩ := parseInt64_ok_bounds v n hp
  have h1 : uint64OfInt64 n = (n + 2 ^ 64).toNat := by
    unfold uint64OfInt64
    congr 1
    have h63 : (2 : Int) ^ 63 = 9223372036854775808 := by norm_num
    have h64 : (2 : Int) ^ 64 = 18446744073709551616 := by norm_num
    rw [h64]
    rw [h63] at hlo
    omega
  simp [GetFileSize, hp, h1]

/-- Witness for C10: the header value `"-1"` yields size `2^64 - 1` and no
error. -/
theorem getFileSize_negative_size_wraps_witness :
    GetFileSize "http://u" (HeadResult.ok ⟨some ("-1", [])⟩) = (2 ^ 64 - 1, none) :=
  (getFileSize_negative_size_wraps "http://u" "-1" [] (-1) rfl (by decide)).trans
    (by decide)

end GoFast
